import Mathlib

/-!
Shallow embedding of the fsspec-backed Meltano state store manager
(module meltano_state_backend_fsspec.manager) and proofs about it.

The manager persists, per state_id, two objects under a base location:
state.json (the serialized state document) and lock (a wall-clock
timestamp written while a holder is inside the protected section).
We model the storage substrate as an explicit state: the set of
state_id directories that exist plus an association list from
(state_id, filename) to file content.  Wall-clock times are modelled
as integers (the source uses float seconds since the epoch; only the
ordering and addition of times matters to the logic).

Backend faults matter to the source: several primitives are wrapped in
contextlib.suppress(FileNotFoundError, OSError).  Each embedded
operation therefore takes explicit Boolean fault flags saying whether
the corresponding backend call raises an OSError-like error; a raised
and suppressed error leaves the storage state unchanged.
-/

set_option autoImplicit false

namespace FSSpecModel

/-- Wall-clock times and lock timestamps, in seconds (source: float
seconds from datetime.now(timezone.utc).timestamp(); the integer model
keeps the comparison and addition structure). -/
abbrev Time := Int

/-- Content of one stored object: a lock file holds the decimal
timestamp written by acquire_lock; a state file holds an opaque
serialized state document.  A blob in a lock file models content that
float() cannot parse back to a number. -/
inductive Content where
  | timestamp (t : Time)
  | blob (s : String)
deriving DecidableEq

/-- The storage substrate visible to one manager: whether the base
location exists, which state_id directories exist directly under it,
and the files keyed by (state_id, filename). -/
structure FS where
  baseExists : Bool
  dirs : List String
  files : List ((String × String) × Content)
deriving DecidableEq

/-- Read the content of base/state_id/name, none when absent. -/
def FS.read (fs : FS) (sid name : String) : Option Content :=
  (fs.files.find? (fun e => e.1.1 == sid && e.1.2 == name)).map (fun e => e.2)

/-- Write (create or overwrite) base/state_id/name. -/
def FS.write (fs : FS) (sid name : String) (c : Content) : FS :=
  { fs with files :=
      ((sid, name), c) :: fs.files.filter (fun e => !(e.1.1 == sid && e.1.2 == name)) }

/-- Remove base/state_id/name (the effect of a successful fs.rm_file). -/
def FS.removeFile (fs : FS) (sid name : String) : FS :=
  { fs with files := fs.files.filter (fun e => !(e.1.1 == sid && e.1.2 == name)) }

/-- Effect of manager.mkdir: path.joinpath(state_id).mkdir(parents=True,
exist_ok=True) creates the base location (parents=True) and the
state_id directory, and is idempotent (exist_ok=True). -/
def FS.mkdirState (fs : FS) (sid : String) : FS :=
  { baseExists := true
    dirs := if fs.dirs.contains sid then fs.dirs else fs.dirs ++ [sid]
    files := fs.files }

/-- Errors that the embedded operations can surface to the caller. -/
inductive Err where
  | ioError
  | parseError
  | valueError
  | appError (n : Nat)
deriving DecidableEq

/-- The manager configuration the embedded operations read
(lock_retry_seconds is never read by the modelled operations:
acquire_lock takes retry_seconds as a per-call argument). -/
structure Manager where
  lock_timeout_seconds : Int
deriving DecidableEq

/-- Environment of a single is_locked call: the wall clock observed by
utc_now, and the injected backend faults.  readFault = true means the
open/read of the lock file raises a backend error that is not
FileNotFoundError; rmFault = true means fs.rm_file raises an OSError. -/
structure LockEnv where
  now : Time
  readFault : Bool
  rmFault : Bool
deriving DecidableEq

/-- Embedding of FSSpecStateStoreManager.is_locked.  Absent lock file:
FileNotFoundError is caught and False returned.  Present: the content
is parsed (a non-numeric blob raises ValueError, uncaught); a stale
timestamp triggers a best-effort single-object delete under
contextlib.suppress(FileNotFoundError, OSError) and False; a fresh
timestamp yields True. -/
def is_locked (m : Manager) (fs : FS) (sid : String) (env : LockEnv) :
    Except Err (Bool × FS) :=
  if env.readFault then .error .ioError
  else
    match fs.read sid "lock" with
    | none => .ok (false, fs)
    | some (.blob _) => .error .parseError
    | some (.timestamp ts) =>
      if env.now > ts + m.lock_timeout_seconds then
        .ok (false, if env.rmFault then fs else fs.removeFile sid "lock")
      else
        .ok (true, fs)

/-- Modelled from the spec: the state document type MeltanoState comes
from the external meltano.core collaborator (not part of this
repository).  The spec says the core treats the document as an opaque
blob it reads and writes verbatim through a serialize/deserialize
capability; we model it as the state_id plus the serialized document
content. -/
structure MeltanoState where
  state_id : String
  content : String
deriving DecidableEq

/-- Modelled from the spec: MeltanoState.json() serializes the document
(the opaque content blob, written verbatim). -/
def MeltanoState.json (st : MeltanoState) : String :=
  st.content

/-- Modelled from the spec: MeltanoState.from_file(state_id, reader)
reconstructs the document from the given state_id and the file content
read back verbatim. -/
def MeltanoState.from_file (sid : String) (s : String) : MeltanoState :=
  { state_id := sid, content := s }

/-- Embedding of FSSpecStateStoreManager.set: mkdir(state_id), then
open the state file for writing (with a JSON content-type hint, not
observable in the model) and write state.json() to it, overwriting any
prior content. -/
def set (fs : FS) (st : MeltanoState) : FS :=
  (fs.mkdirState st.state_id).write st.state_id "state.json" (.blob st.json)

/-- Embedding of FSSpecStateStoreManager.get: read the state file;
FileNotFoundError is caught and None returned; any other backend read
error (readFault) propagates; otherwise the content is deserialized via
MeltanoState.from_file.  A timestamp in the state file models content
the deserializer rejects. -/
def get (fs : FS) (sid : String) (readFault : Bool) :
    Except Err (Option MeltanoState) :=
  if readFault then .error .ioError
  else
    match fs.read sid "state.json" with
    | none => .ok none
    | some (.blob s) => .ok (some (MeltanoState.from_file sid s))
    | some (.timestamp _) => .error .parseError

theorem FS.read_write (fs : FS) (sid name : String) (c : Content) :
    (fs.write sid name c).read sid name = some c := by
  simp [FS.read, FS.write, List.find?]

theorem FS.read_removeFile (fs : FS) (sid name : String) :
    (fs.removeFile sid name).read sid name = none := by
  simp only [FS.read, FS.removeFile]
  induction fs.files with
  | nil => rfl
  | cons e rest ih =>
    by_cases h : (e.1.1 == sid && e.1.2 == name) = true
    · simpa [List.filter, h] using ih
    · simp only [List.filter, h, Bool.not_eq_true] at ih ⊢
      simp only [Bool.not_eq_true] at h
      simpa [List.find?, h] using ih

theorem FS.read_mkdirState (fs : FS) (sid sid2 name : String) :
    (fs.mkdirState sid).read sid2 name = fs.read sid2 name := rfl

/-- Faults injected into one delete(state_id) call: rmFault f = true
means fs.rm_file raises an OSError for the file named f; rmdirFault
means the final state_dir.rmdir() raises. -/
structure DeleteEnv where
  rmFault : String → Bool
  rmdirFault : Bool

/-- Embedding of FSSpecStateStoreManager.delete: no-op when the
state_id directory does not exist; otherwise every object directly
under the directory is deleted individually with fs.rm_file under
contextlib.suppress(FileNotFoundError, OSError), then the directory
itself is removed with rmdir under the same suppression.  rmdir on a
directory left non-empty by a failed per-object delete raises an
OSError, which is likewise suppressed, so the directory then stays. -/
def delete (fs : FS) (sid : String) (env : DeleteEnv) : FS :=
  if fs.dirs.contains sid then
    { baseExists := fs.baseExists
      dirs :=
        if (fs.files.filter (fun e => !(e.1.1 == sid) || env.rmFault e.1.2)).any
              (fun e => e.1.1 == sid) || env.rmdirFault then
          fs.dirs
        else fs.dirs.filter (fun d => !(d == sid))
      files := fs.files.filter (fun e => !(e.1.1 == sid) || env.rmFault e.1.2) }
  else fs

/-- Embedding of FSSpecStateStoreManager.get_state_ids: empty when the
base location does not exist; otherwise the immediate children of the
base (optionally run through glob, modelled by the Boolean predicate
the pattern denotes on child names) whose state.json object exists.
The returned names are the child names, i.e. the state_ids. -/
def get_state_ids (fs : FS) (pat : Option (String → Bool)) : List String :=
  if !fs.baseExists then []
  else
    (match pat with
     | some p => fs.dirs.filter p
     | none => fs.dirs).filter (fun sid => (fs.read sid "state.json").isSome)

/-- Faults and clock readings injected into one acquire_lock call:
mkdirFault makes the initial mkdir raise; polls gives, in order, the
environment of each is_locked poll the loop performs (a finite
schedule: the unbounded while loop is modelled by recursion on it);
writeFault makes the lock-file write raise; writeTime is the utc_now()
value written to the lock file; finalRmFault makes the fs.rm_file in
the finally block raise. -/
structure AcquireEnv where
  mkdirFault : Bool
  polls : List LockEnv
  writeFault : Bool
  writeTime : Time
  finalRmFault : Bool

/-- Embedding of the while-is_locked loop in acquire_lock.  Returns
none when the poll schedule is exhausted while still locked (the real
loop would keep polling), otherwise the list of performed sleeps (one
sleep of retry_seconds per poll that reported locked), the storage
state after the polls (is_locked can reclaim stale locks), and the
error when a poll raised. -/
def lockWaitLoop (m : Manager) (sid : String) (retry : Int) :
    FS → List LockEnv → Option (List Int × FS × Option Err)
  | _, [] => none
  | fs, e :: rest =>
    match is_locked m fs sid e with
    | .error er => some ([], fs, some er)
    | .ok (false, fs2) => some ([], fs2, none)
    | .ok (true, fs2) =>
      (lockWaitLoop m sid retry fs2 rest).map (fun r => (retry :: r.1, r.2))

/-- Sequence of results the successive is_locked polls of acquire_lock
report, threading the storage state (a stale-lock poll reclaims the
lock before the next poll); the sequence stops at the first false and
is truncated at a raising poll or at the end of the schedule. -/
def pollOutcomes (m : Manager) (sid : String) : FS → List LockEnv → List Bool
  | _, [] => []
  | fs, e :: rest =>
    match is_locked m fs sid e with
    | .error _ => []
    | .ok (false, _) => [false]
    | .ok (true, fs2) => true :: pollOutcomes m sid fs2 rest

/-- Effect of the finally block of acquire_lock: a single-object
fs.rm_file of the lock file, with FileNotFoundError and OSError
swallowed (a fault leaves the storage unchanged; an absent file is a
swallowed FileNotFoundError). -/
def releaseLock (fs : FS) (sid : String) (fault : Bool) : FS :=
  if fault then fs else fs.removeFile sid "lock"

instance exceptDecEq {e a : Type} [DecidableEq e] [DecidableEq a] :
    DecidableEq (Except e a) := fun x y =>
  match x, y with
  | .ok v, .ok w =>
    match decEq v w with
    | isTrue h => isTrue (by rw [h])
    | isFalse h => isFalse (by intro hh; cases hh; exact h rfl)
  | .error v, .error w =>
    match decEq v w with
    | isTrue h => isTrue (by rw [h])
    | isFalse h => isFalse (by intro hh; cases hh; exact h rfl)
  | .ok _, .error _ => isFalse (by intro h; cases h)
  | .error _, .ok _ => isFalse (by intro h; cases h)

/-- Observable result of one acquire_lock call: the sleeps performed
(in order, each the retry_seconds of that wait), the final storage
state, and the completion surfaced to the caller. -/
structure AcqResult where
  sleeps : List Int
  fs : FS
  outcome : Except Err Unit
deriving DecidableEq

/-- Embedding of FSSpecStateStoreManager.acquire_lock, a context
manager: try mkdir(state_id); poll is_locked, sleeping retry_seconds
while locked; write str(utc_now()) to the lock file; yield to the
protected section (body, which may transform the storage and complete
normally or raise); finally always delete the lock file best-effort.
Any error raised before the yield reaches the same finally block and
then propagates.  none models the loop never observing unlocked within
the given schedule. -/
def acquire_lock (m : Manager) (fs : FS) (sid : String) (retry_seconds : Int)
    (env : AcquireEnv) (body : FS → FS × Except Err Unit) : Option AcqResult :=
  if env.mkdirFault then
    some { sleeps := []
           fs := releaseLock fs sid env.finalRmFault
           outcome := .error .ioError }
  else
    match lockWaitLoop m sid retry_seconds (fs.mkdirState sid) env.polls with
    | none => none
    | some (sleeps, fs1, some e) =>
      some { sleeps := sleeps
             fs := releaseLock fs1 sid env.finalRmFault
             outcome := .error e }
    | some (sleeps, fs1, none) =>
      if env.writeFault then
        some { sleeps := sleeps
               fs := releaseLock fs1 sid env.finalRmFault
               outcome := .error .ioError }
      else
        let fs2 := fs1.write sid "lock" (.timestamp env.writeTime)
        let r := body fs2
        some { sleeps := sleeps
               fs := releaseLock r.1 sid env.finalRmFault
               outcome := r.2 }

/-- Embedding of PROTOCOL_MAPPING: the alias table from a logical
protocol name to the concrete backend scheme. -/
def PROTOCOL_MAPPING : List (String × String) := [("azure", "abfs")]

/-- Embedding of PROTOCOL_MAPPING.get(p, p): alias resolution with the
input itself as the fallback. -/
def resolveProtocol (p : String) : String :=
  match PROTOCOL_MAPPING.find? (fun e => e.1 == p) with
  | some e => e.2
  | none => p

/-- Embedding of Python str.split(".") at the character level: split
at every dot, keeping empty parts, so a string with no dot yields one
part and a string with n dots yields n+1 parts. -/
def splitDots : List Char → List (List Char)
  | [] => [[]]
  | '.' :: rest => [] :: splitDots rest
  | c :: rest =>
    match splitDots rest with
    | [] => [[c]]
    | p :: ps => (c :: p) :: ps

/-- Embedding of key.split(".") on strings, via splitDots. -/
def splitOnDot (s : String) : List String :=
  (splitDots s.toList).map String.mk

/-- Python dict assignment opts[name] = value: overwrite in place when
the key is present, append otherwise (insertion order preserved). -/
def dictInsert (acc : List (String × String)) (name v : String) :
    List (String × String) :=
  if acc.any (fun e => e.1 == name) then
    acc.map (fun e => if e.1 == name then (name, v) else e)
  else acc ++ [(name, v)]

/-- Embedding of the storage_options loop in __init__ (proto is the
already alias-resolved active protocol, acc the dict built so far):
each key is split on the dot (a key that does not split into exactly a
setting-prefix part and a name part makes the tuple unpacking raise a
ValueError); keys whose alias-resolved first part differs from the
active protocol are skipped; the rest are stored under the name part. -/
def storageOptsLoop (proto : String) :
    List (String × String) → List (String × String) →
    Except Err (List (String × String))
  | acc, [] => .ok acc
  | acc, (key, v) :: rest =>
    match splitOnDot key with
    | [part1, name] =>
      if resolveProtocol part1 == proto then
        storageOptsLoop proto (dictInsert acc name v) rest
      else storageOptsLoop proto acc rest
    | _ => .error .valueError

/-- Embedding of the storage-option processing of __init__: the active
protocol is alias-resolved first, then the flat namespaced option
mapping is filtered and stripped by storageOptsLoop starting from an
empty dict. -/
def filterStorageOptions (protocol : String)
    (storage_options : List (String × String)) :
    Except Err (List (String × String)) :=
  storageOptsLoop (resolveProtocol protocol) [] storage_options

/-- Specification-side view of the option filtering, written from the
claim: keep exactly the well-formed keys whose alias-resolved first
part matches the alias-resolved active protocol, each passed onward
under its name part. -/
def matchedOptions (protocol : String) (opts : List (String × String)) :
    List (String × String) :=
  opts.filterMap (fun kv =>
    match splitOnDot kv.1 with
    | [part1, name] =>
      if resolveProtocol part1 == resolveProtocol protocol then some (name, kv.2)
      else none
    | _ => none)

/-- The placeholder scheme text fs:// that __init__ substitutes in the
configured uri. -/
def placeholderChars : List Char := ['f', 's', ':', '/', '/']

/-- Embedding of Python str.replace(pat, rep) specialized to the
pattern fs://: scan left to right, replacing every non-overlapping
occurrence of the pattern wherever it appears in the text. -/
def replacePlaceholder (rep : List Char) : List Char → List Char
  | 'f' :: 's' :: ':' :: '/' :: '/' :: rest => rep ++ replacePlaceholder rep rest
  | c :: rest => c :: replacePlaceholder rep rest
  | [] => []

/-- Whether the text contains an occurrence of fs:// anywhere. -/
def hasPlaceholder : List Char → Bool
  | 'f' :: 's' :: ':' :: '/' :: '/' :: _ => true
  | _ :: rest => hasPlaceholder rest
  | [] => false

/-- Embedding of self._fsuri = uri.replace("fs://", f"{protocol}://")
in __init__, where protocol has already been alias-resolved. -/
def fsuri (uri : List Char) (protocol : String) : List Char :=
  replacePlaceholder ((resolveProtocol protocol).toList ++ [':', '/', '/']) uri

theorem contains_eq_false_iff (l : List String) (a : String) :
    l.contains a = false ↔ a ∉ l := by
  rw [Bool.eq_false_iff]
  exact not_congr List.elem_iff

theorem contains_filter_self (l : List String) (a : String) :
    (l.filter (fun d => !(d == a))).contains a = false := by
  rw [contains_eq_false_iff]
  intro h
  have hp := (List.mem_filter.mp h).2
  simp at hp

theorem any_filter_not_sid (files : List ((String × String) × Content)) (sid : String) :
    (files.filter (fun e => !(e.1.1 == sid))).any (fun e => e.1.1 == sid) = false := by
  rw [Bool.eq_false_iff]
  intro h
  obtain ⟨e, he, hpred⟩ := List.any_eq_true.mp h
  have hq := (List.mem_filter.mp he).2
  rw [hpred] at hq
  simp at hq

theorem all_filter_not_sid (files : List ((String × String) × Content)) (sid : String) :
    (files.filter (fun e => !(e.1.1 == sid))).all (fun e => !(e.1.1 == sid)) = true := by
  rw [List.all_eq_true]
  intro e he
  exact (List.mem_filter.mp he).2

theorem mem_get_state_ids (fs : FS) (pat : Option (String → Bool)) (sid : String) :
    sid ∈ get_state_ids fs pat ↔
      fs.baseExists = true ∧ sid ∈ fs.dirs ∧
      (∀ p, pat = some p → p sid = true) ∧
      (fs.read sid "state.json").isSome = true := by
  unfold get_state_ids
  cases hb : fs.baseExists with
  | false => simp
  | true =>
    cases pat with
    | none => simp [List.mem_filter]
    | some p =>
      simp [List.mem_filter]
      tauto

theorem delete_closed_form (fs : FS) (sid : String) (env : DeleteEnv)
    (hf : ∀ n, env.rmFault n = false) (hd : env.rmdirFault = false)
    (hdir : fs.dirs.contains sid = true) :
    delete fs sid env =
      { baseExists := fs.baseExists
        dirs := fs.dirs.filter (fun d => !(d == sid))
        files := fs.files.filter (fun e => !(e.1.1 == sid)) } := by
  have hcong : fs.files.filter (fun e => !(e.1.1 == sid) || env.rmFault e.1.2)
      = fs.files.filter (fun e => !(e.1.1 == sid)) := by
    apply List.filter_congr
    intro e _
    rw [hf, Bool.or_false]
  unfold delete
  rw [if_pos hdir, hcong, hd, Bool.or_false, any_filter_not_sid, if_neg]
  exact Bool.false_ne_true

theorem find?_filter_not_sid (files : List ((String × String) × Content))
    (sid name : String) :
    (files.filter (fun e => !(e.1.1 == sid))).find?
      (fun e => e.1.1 == sid && e.1.2 == name) = none := by
  rw [List.find?_eq_none]
  intro e he
  have hq := (List.mem_filter.mp he).2
  intro hx
  rw [Bool.and_eq_true] at hx
  rw [hx.1] at hq
  simp at hq

theorem dictInsert_eq_append (acc : List (String × String)) (name v : String)
    (h : name ∉ acc.map Prod.fst) :
    dictInsert acc name v = acc ++ [(name, v)] := by
  unfold dictInsert
  rw [if_neg]
  intro hc
  obtain ⟨e, he, hpred⟩ := List.any_eq_true.mp hc
  exact h (List.mem_map.mpr ⟨e, he, by simpa using hpred⟩)

theorem storageOptsLoop_append (protocol : String) (opts : List (String × String)) :
    ∀ acc : List (String × String),
      (∀ kv ∈ opts, (splitOnDot kv.1).length = 2) →
      ((matchedOptions protocol opts).map Prod.fst).Nodup →
      (∀ x ∈ acc, x.1 ∉ (matchedOptions protocol opts).map Prod.fst) →
      storageOptsLoop (resolveProtocol protocol) acc opts =
        .ok (acc ++ matchedOptions protocol opts) := by
  induction opts with
  | nil =>
    intro acc _ _ _
    simp [storageOptsLoop, matchedOptions]
  | cons kv rest ih =>
    obtain ⟨key, v⟩ := kv
    intro acc h1 h2 h3
    have hk : (splitOnDot key).length = 2 := h1 (key, v) (by simp)
    match hsp : splitOnDot key with
    | [] => rw [hsp] at hk; simp at hk
    | [_] => rw [hsp] at hk; simp at hk
    | _ :: _ :: _ :: _ => rw [hsp] at hk; simp at hk
    | [a, b] =>
      have hm : matchedOptions protocol ((key, v) :: rest) =
          if resolveProtocol a == resolveProtocol protocol then
            (b, v) :: matchedOptions protocol rest
          else matchedOptions protocol rest := by
        simp only [matchedOptions, List.filterMap_cons, hsp]
        by_cases hq : (resolveProtocol a == resolveProtocol protocol) = true
        · rw [if_pos hq, if_pos hq]
        · rw [if_neg hq, if_neg hq]
      have h1r : ∀ kv ∈ rest, (splitOnDot kv.1).length = 2 := by
        intro kv hkv
        exact h1 kv (List.mem_cons_of_mem _ hkv)
      rw [hm] at h2 h3
      by_cases hq : (resolveProtocol a == resolveProtocol protocol) = true
      · rw [if_pos hq] at h2 h3
        simp only [List.map_cons, List.nodup_cons] at h2
        have hb_acc : b ∉ acc.map Prod.fst := by
          intro hmem
          obtain ⟨x, hx, hx1⟩ := List.mem_map.mp hmem
          exact (h3 x hx) (by rw [hx1]; exact List.mem_cons_self _ _)
        have step : storageOptsLoop (resolveProtocol protocol) acc ((key, v) :: rest)
            = storageOptsLoop (resolveProtocol protocol) (dictInsert acc b v) rest := by
          simp only [storageOptsLoop, hsp]
          rw [if_pos hq]
        rw [step, dictInsert_eq_append acc b v hb_acc]
        rw [ih (acc ++ [(b, v)]) h1r h2.2 ?disj]
        · rw [hm, if_pos hq]
          simp
        case disj =>
          intro x hx
          rcases List.mem_append.mp hx with hx1 | hx2
          · intro hmem
            exact (h3 x hx1) (List.mem_cons_of_mem _ hmem)
          · have : x = (b, v) := by simpa using hx2
            rw [this]
            exact h2.1
      · rw [if_neg hq] at h2 h3
        have step : storageOptsLoop (resolveProtocol protocol) acc ((key, v) :: rest)
            = storageOptsLoop (resolveProtocol protocol) acc rest := by
          simp only [storageOptsLoop, hsp]
          rw [if_neg hq]
        rw [step, ih acc h1r h2 h3, hm, if_neg hq]

theorem lockWaitLoop_replicate (m : Manager) (sid : String) (retry : Int)
    (polls : List LockEnv) :
    ∀ (fs : FS) (N : Nat),
      pollOutcomes m sid fs polls = List.replicate N true ++ [false] →
      ∃ fs1, lockWaitLoop m sid retry fs polls =
        some (List.replicate N retry, fs1, none) := by
  induction polls with
  | nil =>
    intro fs N h
    rw [pollOutcomes] at h
    exact absurd h.symm (List.append_ne_nil_of_right_ne_nil _ (by simp))
  | cons e rest ih =>
    intro fs N h
    rw [pollOutcomes] at h
    cases hlk : is_locked m fs sid e with
    | error er =>
      rw [hlk] at h
      exact absurd h.symm (List.append_ne_nil_of_right_ne_nil _ (by simp))
    | ok p =>
      obtain ⟨b, fs2⟩ := p
      cases b with
      | false =>
        rw [hlk] at h
        cases N with
        | zero =>
          refine ⟨fs2, ?_⟩
          simp [lockWaitLoop, hlk]
        | succ n =>
          rw [List.replicate_succ] at h
          exact absurd (List.head_eq_of_cons_eq h.symm) (by simp)
      | true =>
        rw [hlk] at h
        cases N with
        | zero =>
          exact absurd (List.head_eq_of_cons_eq h) (by simp)
        | succ n =>
          rw [List.replicate_succ] at h
          have htail := List.tail_eq_of_cons_eq h
          obtain ⟨fs1, h1⟩ := ih fs2 n htail
          refine ⟨fs1, ?_⟩
          simp [lockWaitLoop, hlk, h1, List.replicate_succ]

theorem replacePlaceholder_not_has (rep : List Char) (l : List Char)
    (h : hasPlaceholder l = false) : replacePlaceholder rep l = l := by
  induction l using replacePlaceholder.induct rep with
  | case1 rest ih => simp [hasPlaceholder] at h
  | case2 c rest hne ih =>
    rw [hasPlaceholder.eq_2 c rest hne] at h
    rw [replacePlaceholder.eq_2 rep c rest hne, ih h]
  | case3 => rfl

theorem replacePlaceholder_head (rep rest : List Char) :
    replacePlaceholder rep (placeholderChars ++ rest) =
      rep ++ replacePlaceholder rep rest := rfl

/-- C1 (counterexample): a stale lock whose best-effort delete fails
with a suppressed backend error: is_locked reports false, yet the lock
file still exists afterwards, refuting the claim that after a stale
check the lock file no longer exists. -/
theorem is_locked_stale_rm_counterexample :
    is_locked { lock_timeout_seconds := 60 }
        { baseExists := true, dirs := ["tap"],
          files := [(("tap", "lock"), Content.timestamp 0)] } "tap"
        { now := 100, readFault := false, rmFault := true } =
      .ok (false,
        { baseExists := true, dirs := ["tap"],
          files := [(("tap", "lock"), Content.timestamp 0)] }) ∧
    FS.read
        { baseExists := true, dirs := ["tap"],
          files := [(("tap", "lock"), Content.timestamp 0)] } "tap" "lock" =
      some (Content.timestamp 0) := by decide

/-- C1 (amended): for every state_id, when the lock-file read raises
no backend fault, is_locked returns false when the lock file is
absent; when the lock file is present with embedded timestamp ts it
returns true when the current time is at most ts plus
lock_timeout_seconds, and otherwise (lock stale) it deletes the lock
file best-effort, ignoring delete failures, and returns false; when
the delete does not fail the lock file no longer exists afterwards. -/
theorem is_locked_spec (m : Manager) (fs : FS) (sid : String) (env : LockEnv)
    (h : env.readFault = false) :
    (fs.read sid "lock" = none → is_locked m fs sid env = .ok (false, fs)) ∧
    (∀ ts, fs.read sid "lock" = some (.timestamp ts) →
      (env.now ≤ ts + m.lock_timeout_seconds →
        is_locked m fs sid env = .ok (true, fs)) ∧
      (env.now > ts + m.lock_timeout_seconds →
        is_locked m fs sid env =
          .ok (false, if env.rmFault then fs else fs.removeFile sid "lock") ∧
        (fs.removeFile sid "lock").read sid "lock" = none)) := by
  refine ⟨?_, ?_⟩
  · intro hn
    simp [is_locked, h, hn]
  · intro ts hts
    refine ⟨?_, ?_⟩
    · intro hle
      have hno : ¬ (env.now > ts + m.lock_timeout_seconds) := not_lt.mpr hle
      simp [is_locked, h, hts, hno]
    · intro hgt
      refine ⟨?_, FS.read_removeFile fs sid "lock"⟩
      simp [is_locked, h, hts, hgt]

/-- C1 (witness for the amended theorem): a fresh lock written at time
0 with timeout 60 observed at time 10 reports locked. -/
theorem is_locked_spec_witness :
    is_locked { lock_timeout_seconds := 60 }
        { baseExists := true, dirs := ["tap"],
          files := [(("tap", "lock"), Content.timestamp 0)] } "tap"
        { now := 10, readFault := false, rmFault := false } =
      .ok (true,
        { baseExists := true, dirs := ["tap"],
          files := [(("tap", "lock"), Content.timestamp 0)] }) :=
  ((is_locked_spec { lock_timeout_seconds := 60 }
      { baseExists := true, dirs := ["tap"],
        files := [(("tap", "lock"), Content.timestamp 0)] } "tap"
      { now := 10, readFault := false, rmFault := false } rfl).2
    0 rfl).1 (by decide)

/-- C3: for every storage state and state document, set followed by
get on the same state_id reconstructs an equal document: set writes
the serialized document to the state file, overwriting any existing
content, and get deserializes it back. -/
theorem set_get_roundtrip (fs : FS) (st : MeltanoState) :
    get (set fs st) st.state_id false = .ok (some st) := by
  simp [get, set, FS.read_write, MeltanoState.from_file, MeltanoState.json]

/-- C5: get returns the explicit absent result None when the state
file does not exist, including for a state_id never written, without
turning not-found into an error; a backend read failure other than
not-found propagates to the caller as a store error. -/
theorem get_not_found_spec (fs : FS) (sid : String) :
    (fs.read sid "state.json" = none → get fs sid false = .ok none) ∧
    get fs sid true = .error .ioError := by
  constructor
  · intro h
    simp [get, h]
  · rfl

/-- C5 (witness): a state_id never written yields None. -/
theorem get_not_found_spec_witness :
    get { baseExists := true, dirs := [], files := [] } "never" false = .ok none :=
  (get_not_found_spec { baseExists := true, dirs := [], files := [] } "never").1 rfl

theorem delete_noop (fs : FS) (sid : String) (env : DeleteEnv)
    (h : fs.dirs.contains sid = false) : delete fs sid env = fs := by
  unfold delete
  rw [if_neg]
  rw [h]
  exact Bool.false_ne_true

/-- C6 (counterexample): when the per-object deletes fail with
suppressed permission errors, delete called twice in a row still
leaves the state behind and get_state_ids still reports the state_id,
refuting the claim that it leaves no trace. -/
theorem delete_trace_counterexample :
    "tap" ∈ get_state_ids
      (delete
        (delete { baseExists := true, dirs := ["tap"],
                  files := [(("tap", "state.json"), Content.blob "x")] } "tap"
          { rmFault := fun _ => true, rmdirFault := false }) "tap"
        { rmFault := fun _ => true, rmdirFault := false }) none := by decide

/-- C6 (amended): delete never raises (all per-object delete and
directory-removal failures are suppressed) and is a no-op when the
state_id directory does not exist; when the per-object deletes and the
directory removal do not fail, no object and no directory remain under
the state_id, a second delete in a row is a no-op, and get_state_ids
excludes the state_id; suppressed deletion failures may leave objects
behind. -/
theorem delete_spec (fs : FS) (sid : String) (env : DeleteEnv)
    (pat : Option (String → Bool))
    (hf : ∀ n, env.rmFault n = false) (hd : env.rmdirFault = false) :
    (fs.dirs.contains sid = false → delete fs sid env = fs) ∧
    (delete fs sid env).dirs.contains sid = false ∧
    (fs.dirs.contains sid = true →
      (delete fs sid env).files.all (fun e => !(e.1.1 == sid)) = true) ∧
    delete (delete fs sid env) sid env = delete fs sid env ∧
    sid ∉ get_state_ids (delete fs sid env) pat := by
  by_cases hdir : fs.dirs.contains sid = true
  · have hcf := delete_closed_form fs sid env hf hd hdir
    have hc2 : (delete fs sid env).dirs.contains sid = false := by
      rw [hcf]
      exact contains_filter_self _ _
    refine ⟨fun h => delete_noop fs sid env h, hc2, ?_, delete_noop _ sid env hc2, ?_⟩
    · intro _
      rw [hcf]
      exact all_filter_not_sid _ _
    · intro hmem
      have hx := (mem_get_state_ids _ pat sid).mp hmem
      exact (contains_eq_false_iff _ _).mp hc2 hx.2.1
  · have hfalse : fs.dirs.contains sid = false := by
      cases hx : fs.dirs.contains sid with
      | false => rfl
      | true => exact absurd hx hdir
    have hno := delete_noop fs sid env hfalse
    refine ⟨fun _ => hno, ?_, ?_, ?_, ?_⟩
    · rw [hno]
      exact hfalse
    · intro hcontra
      rw [hfalse] at hcontra
      cases hcontra
    · rw [hno]
      exact hno
    · rw [hno]
      intro hmem
      have hx := (mem_get_state_ids fs pat sid).mp hmem
      exact (contains_eq_false_iff _ _).mp hfalse hx.2.1

/-- C6 (witness for the amended theorem): a fault-free delete of an
existing state_id is idempotent and leaves the state_id unreported. -/
theorem delete_spec_witness :
    delete
        (delete { baseExists := true, dirs := ["tap"],
                  files := [(("tap", "state.json"), Content.blob "x"),
                            (("tap", "lock"), Content.timestamp 0)] } "tap"
          { rmFault := fun _ => false, rmdirFault := false }) "tap"
        { rmFault := fun _ => false, rmdirFault := false } =
      delete { baseExists := true, dirs := ["tap"],
               files := [(("tap", "state.json"), Content.blob "x"),
                         (("tap", "lock"), Content.timestamp 0)] } "tap"
        { rmFault := fun _ => false, rmdirFault := false } ∧
    "tap" ∉ get_state_ids
      (delete { baseExists := true, dirs := ["tap"],
                files := [(("tap", "state.json"), Content.blob "x"),
                          (("tap", "lock"), Content.timestamp 0)] } "tap"
        { rmFault := fun _ => false, rmdirFault := false }) none :=
  (delete_spec { baseExists := true, dirs := ["tap"],
                 files := [(("tap", "state.json"), Content.blob "x"),
                           (("tap", "lock"), Content.timestamp 0)] } "tap"
      { rmFault := fun _ => false, rmdirFault := false } none
      (fun _ => rfl) rfl).2.2.2

/-- C7: get_state_ids returns the empty sequence when the base
location does not exist; otherwise a name is returned exactly when it
is an immediate child of the base location, passes the glob pattern
when one is given, and contains a state.json object — so directories
that exist without a state.json, such as one created only by lock
acquisition, are excluded. -/
theorem get_state_ids_spec (fs : FS) (pat : Option (String → Bool)) :
    (fs.baseExists = false → get_state_ids fs pat = []) ∧
    ∀ sid, sid ∈ get_state_ids fs pat ↔
      fs.baseExists = true ∧ sid ∈ fs.dirs ∧
      (∀ p, pat = some p → p sid = true) ∧
      (fs.read sid "state.json").isSome = true := by
  constructor
  · intro h
    simp [get_state_ids, h]
  · intro sid
    exact mem_get_state_ids fs pat sid

/-- C7 (witness): a populated state_id is reported; a directory
holding only a lock file is not. -/
theorem get_state_ids_spec_witness :
    "tap" ∈ get_state_ids
      { baseExists := true, dirs := ["tap", "bare"],
        files := [(("tap", "state.json"), Content.blob "s"),
                  (("bare", "lock"), Content.timestamp 3)] } none ∧
    "bare" ∉ get_state_ids
      { baseExists := true, dirs := ["tap", "bare"],
        files := [(("tap", "state.json"), Content.blob "s"),
                  (("bare", "lock"), Content.timestamp 3)] } none := by
  constructor
  · exact ((get_state_ids_spec
      { baseExists := true, dirs := ["tap", "bare"],
        files := [(("tap", "state.json"), Content.blob "s"),
                  (("bare", "lock"), Content.timestamp 3)] } none).2 "tap").mpr
      ⟨rfl, ⟨by decide, ⟨fun p h => (nomatch h), by decide⟩⟩⟩
  · intro hmem
    have hx := ((get_state_ids_spec
      { baseExists := true, dirs := ["tap", "bare"],
        files := [(("tap", "state.json"), Content.blob "s"),
                  (("bare", "lock"), Content.timestamp 3)] } none).2 "bare").mp hmem
    exact absurd hx.2.2.2 (by decide)

/-- C8: at construction, for every storage_options mapping whose keys
are namespaced as one backend-prefix part and one option-name part
(and whose surviving stripped names do not collide), the processing
never raises: each key whose alias-resolved prefix does not match the
alias-resolved active protocol is dropped silently, and each key whose
prefix matches is passed onward under the option name with the prefix
stripped. -/
theorem filterStorageOptions_spec (protocol : String)
    (opts : List (String × String))
    (h1 : ∀ kv ∈ opts, (splitOnDot kv.1).length = 2)
    (h2 : ((matchedOptions protocol opts).map Prod.fst).Nodup) :
    filterStorageOptions protocol opts = .ok (matchedOptions protocol opts) := by
  unfold filterStorageOptions
  have h := storageOptsLoop_append protocol opts [] h1 h2
    (fun x hx => absurd hx (List.not_mem_nil x))
  simpa using h

/-- C8 (witness): with active protocol azure, both the azure and the
abfs prefixes alias-resolve to the active backend and survive with the
prefix stripped, while an s3 key is dropped silently. -/
theorem filterStorageOptions_spec_witness :
    filterStorageOptions "azure"
        [("azure.account_name", "x"), ("s3.key", "y"), ("abfs.sas_token", "z")] =
      .ok [("account_name", "x"), ("sas_token", "z")] :=
  (filterStorageOptions_spec "azure"
      [("azure.account_name", "x"), ("s3.key", "y"), ("abfs.sas_token", "z")]
      (by decide) (by decide)).trans (by decide)

/-- C9 (counterexample): the substitution is a plain textual
replacement of every occurrence of fs://, not a substitution of the
placeholder scheme only: the uri gfs://b has no placeholder scheme
(its scheme is gfs), yet the computed base location is not the input
uri unchanged but gabfs://b. -/
theorem fsuri_counterexample :
    fsuri ('g' :: 'f' :: 's' :: ':' :: '/' :: '/' :: 'b' :: []) "azure" ≠
      'g' :: 'f' :: 's' :: ':' :: '/' :: '/' :: 'b' :: [] ∧
    fsuri ('g' :: 'f' :: 's' :: ':' :: '/' :: '/' :: 'b' :: []) "azure" =
      'g' :: 'a' :: 'b' :: 'f' :: 's' :: ':' :: '/' :: '/' :: 'b' :: [] := by
  decide

/-- C9 (amended): the base location is the input uri with every
occurrence of the placeholder text fs:// replaced by the
alias-resolved concrete scheme followed by ://; in particular, for a
uri that starts with the placeholder scheme and contains no other
occurrence of fs://, exactly the scheme is substituted, and logical
protocol azure yields scheme abfs. -/
theorem fsuri_scheme_spec (rest : List Char) (protocol : String)
    (h : hasPlaceholder rest = false) :
    fsuri (placeholderChars ++ rest) protocol =
      (resolveProtocol protocol).toList ++ ':' :: '/' :: '/' :: rest ∧
    resolveProtocol "azure" = "abfs" := by
  constructor
  · unfold fsuri
    rw [replacePlaceholder_head, replacePlaceholder_not_has _ rest h]
    simp
  · rfl

/-- C9 (witness for the amended theorem): fs://bu with protocol azure
resolves to abfs://bu. -/
theorem fsuri_scheme_spec_witness :
    fsuri (placeholderChars ++ ('b' :: 'u' :: [])) "azure" =
      'a' :: 'b' :: 'f' :: 's' :: ':' :: '/' :: '/' :: 'b' :: 'u' :: [] :=
  ((fsuri_scheme_spec ('b' :: 'u' :: []) "azure" (by decide)).1).trans (by decide)

/-- C2: for every state_id and every outcome of the protected section
under acquire_lock — normal completion or any failure raised within it
— the lock file is deleted on exit using the single-object delete
primitive; failures of that delete because the file is already absent
or because of backend permission errors are swallowed, and the
original completion or failure is re-surfaced to the caller
unchanged. -/
theorem acquire_lock_release_spec (m : Manager) (fs : FS) (sid : String)
    (retry : Int) (env : AcquireEnv) (body : FS → FS × Except Err Unit)
    (sleeps : List Int) (fs1 fsb : FS) (out : Except Err Unit)
    (hmk : env.mkdirFault = false) (hw : env.writeFault = false)
    (hloop : lockWaitLoop m sid retry (fs.mkdirState sid) env.polls =
      some (sleeps, fs1, none))
    (hbody : body (fs1.write sid "lock" (.timestamp env.writeTime)) = (fsb, out)) :
    acquire_lock m fs sid retry env body =
      some { sleeps := sleeps, fs := releaseLock fsb sid env.finalRmFault,
             outcome := out } ∧
    (env.finalRmFault = false →
      (releaseLock fsb sid env.finalRmFault).read sid "lock" = none) := by
  constructor
  · simp [acquire_lock, hmk, hw, hloop, hbody]
  · intro hrm
    simp [releaseLock, hrm, FS.read_removeFile]

/-- C2 (witness): a protected section that raises an application
failure: the lock file is removed and the failure re-surfaces. -/
theorem acquire_lock_release_spec_witness :
    acquire_lock { lock_timeout_seconds := 60 }
        { baseExists := true, dirs := [], files := [] } "tap" 1
        { mkdirFault := false,
          polls := [{ now := 5, readFault := false, rmFault := false }],
          writeFault := false, writeTime := 5, finalRmFault := false }
        (fun s => (s, .error (.appError 7))) =
      some { sleeps := [],
             fs := releaseLock
                 (FS.write
                   (FS.mkdirState { baseExists := true, dirs := [], files := [] }
                     "tap") "tap" "lock" (.timestamp 5)) "tap" false,
             outcome := .error (.appError 7) } ∧
    (releaseLock
        (FS.write
          (FS.mkdirState { baseExists := true, dirs := [], files := [] } "tap")
          "tap" "lock" (.timestamp 5)) "tap" false).read "tap" "lock" = none := by
  have h := acquire_lock_release_spec { lock_timeout_seconds := 60 }
    { baseExists := true, dirs := [], files := [] } "tap" 1
    { mkdirFault := false,
      polls := [{ now := 5, readFault := false, rmFault := false }],
      writeFault := false, writeTime := 5, finalRmFault := false }
    (fun s => (s, .error (.appError 7))) []
    (FS.mkdirState { baseExists := true, dirs := [], files := [] } "tap")
    (FS.write
      (FS.mkdirState { baseExists := true, dirs := [], files := [] } "tap")
      "tap" "lock" (.timestamp 5))
    (.error (.appError 7)) rfl rfl (by decide) rfl
  exact ⟨h.1, h.2 rfl⟩

/-- C4: for every state_id and every N, if is_locked reports true for
exactly N consecutive polls and then false, acquire_lock sleeps
exactly N times, each sleep equal to the given retry_seconds, before
writing the current UTC epoch-seconds timestamp to the lock file and
yielding control to the protected section. -/
theorem acquire_lock_retry_spec (m : Manager) (fs : FS) (sid : String)
    (retry : Int) (env : AcquireEnv) (body : FS → FS × Except Err Unit) (N : Nat)
    (hmk : env.mkdirFault = false) (hw : env.writeFault = false)
    (hpolls : pollOutcomes m sid (fs.mkdirState sid) env.polls =
      List.replicate N true ++ [false]) :
    ∃ fs1,
      lockWaitLoop m sid retry (fs.mkdirState sid) env.polls =
        some (List.replicate N retry, fs1, none) ∧
      acquire_lock m fs sid retry env body =
        some { sleeps := List.replicate N retry
               fs := releaseLock
                   (body (fs1.write sid "lock" (.timestamp env.writeTime))).1
                   sid env.finalRmFault
               outcome :=
                 (body (fs1.write sid "lock" (.timestamp env.writeTime))).2 } := by
  obtain ⟨fs1, h1⟩ :=
    lockWaitLoop_replicate m sid retry env.polls (fs.mkdirState sid) N hpolls
  refine ⟨fs1, h1, ?_⟩
  simp [acquire_lock, hmk, hw, h1]

/-- C4 (witness): one poll observes a fresh lock (one sleep of the
given retry interval), the next observes it stale, then the lock is
written and the body runs. -/
theorem acquire_lock_retry_spec_witness :
    pollOutcomes { lock_timeout_seconds := 60 } "tap"
        (FS.mkdirState
          { baseExists := true, dirs := ["tap"],
            files := [(("tap", "lock"), Content.timestamp 0)] } "tap")
        [{ now := 10, readFault := false, rmFault := false },
         { now := 100, readFault := false, rmFault := false }] =
      List.replicate 1 true ++ [false] ∧
    ∃ fs1,
      lockWaitLoop { lock_timeout_seconds := 60 } "tap" 2
          (FS.mkdirState
            { baseExists := true, dirs := ["tap"],
              files := [(("tap", "lock"), Content.timestamp 0)] } "tap")
          [{ now := 10, readFault := false, rmFault := false },
           { now := 100, readFault := false, rmFault := false }] =
        some (List.replicate 1 2, fs1, none) ∧
      acquire_lock { lock_timeout_seconds := 60 }
          { baseExists := true, dirs := ["tap"],
            files := [(("tap", "lock"), Content.timestamp 0)] } "tap" 2
          { mkdirFault := false,
            polls := [{ now := 10, readFault := false, rmFault := false },
                      { now := 100, readFault := false, rmFault := false }],
            writeFault := false, writeTime := 100, finalRmFault := false }
          (fun s => (s, .ok ())) =
        some { sleeps := List.replicate 1 2
               fs := releaseLock
                   ((fun (s : FS) => (s, (.ok () : Except Err Unit)))
                     (fs1.write "tap" "lock" (.timestamp 100))).1
                   "tap" false
               outcome :=
                 ((fun (s : FS) => (s, (.ok () : Except Err Unit)))
                   (fs1.write "tap" "lock" (.timestamp 100))).2 } :=
  ⟨by decide,
    acquire_lock_retry_spec { lock_timeout_seconds := 60 }
      { baseExists := true, dirs := ["tap"],
        files := [(("tap", "lock"), Content.timestamp 0)] } "tap" 2
      { mkdirFault := false,
        polls := [{ now := 10, readFault := false, rmFault := false },
                  { now := 100, readFault := false, rmFault := false }],
        writeFault := false, writeTime := 100, finalRmFault := false }
      (fun s => (s, .ok ())) 1 rfl rfl (by decide)⟩

/-- C10: the cleanup path of acquire_lock attempts to delete the lock
file on every exit, including when an exception escapes before the
lock file was ever written — during directory creation or during the
is_locked polling check — so an acquisition attempt that never
acquired the lock still deletes a lock file written by another
holder. -/
theorem acquire_lock_cleanup_spec (m : Manager) (fs : FS) (sid : String)
    (retry : Int) (env : AcquireEnv) (body : FS → FS × Except Err Unit)
    (c : Content)
    (hrm : env.finalRmFault = false)
    (hlock : fs.read sid "lock" = some c)
    (hpre : env.mkdirFault = true ∨
      (env.mkdirFault = false ∧
        ∃ pe rest, env.polls = pe :: rest ∧ pe.readFault = true)) :
    ∃ (er : Err) (fsb : FS),
      acquire_lock m fs sid retry env body =
        some { sleeps := [], fs := fsb.removeFile sid "lock",
               outcome := .error er } ∧
      fsb.read sid "lock" = some c ∧
      (fsb.removeFile sid "lock").read sid "lock" = none := by
  rcases hpre with hmk | ⟨hmk, pe, rest, hp, hrf⟩
  · refine ⟨.ioError, fs, ?_, hlock, FS.read_removeFile fs sid "lock"⟩
    simp [acquire_lock, hmk, releaseLock, hrm]
  · refine ⟨.ioError, fs.mkdirState sid, ?_, ?_,
      FS.read_removeFile (fs.mkdirState sid) sid "lock"⟩
    · simp [acquire_lock, hmk, hp, lockWaitLoop, is_locked, hrf, releaseLock, hrm]
    · rw [FS.read_mkdirState]
      exact hlock

/-- C10 (witness): mkdir raises at once, yet the finally block removes
the lock file another holder had written, and the failure surfaces. -/
theorem acquire_lock_cleanup_spec_witness :
    ∃ (er : Err) (fsb : FS),
      acquire_lock { lock_timeout_seconds := 60 }
          { baseExists := true, dirs := ["tap"],
            files := [(("tap", "lock"), Content.timestamp 0)] } "tap" 1
          { mkdirFault := true, polls := [], writeFault := false,
            writeTime := 0, finalRmFault := false }
          (fun s => (s, .ok ())) =
        some { sleeps := [], fs := fsb.removeFile "tap" "lock",
               outcome := .error er } ∧
      fsb.read "tap" "lock" = some (Content.timestamp 0) ∧
      (fsb.removeFile "tap" "lock").read "tap" "lock" = none :=
  acquire_lock_cleanup_spec { lock_timeout_seconds := 60 }
    { baseExists := true, dirs := ["tap"],
      files := [(("tap", "lock"), Content.timestamp 0)] } "tap" 1
    { mkdirFault := true, polls := [], writeFault := false,
      writeTime := 0, finalRmFault := false }
    (fun s => (s, .ok ())) (Content.timestamp 0) rfl rfl (Or.inl rfl)

end FSSpecModel
